/-
Verification of the breathUnity repository's stream-processing core:
the iOS → Unity bridge (src/python/ios_to_unity_bridge.py) and the
windowed breathing analyzer (src/python/enhanced_belt_analysis.py),
shallowly embedded in Lean 4.  Python floats are modelled as ℚ where the
code only does field arithmetic and comparisons, and as ℝ where a square
root occurs (statistics.stdev).
-/
import Mathlib

namespace BreathUnity

/-! ## iOS → Unity bridge (src/python/ios_to_unity_bridge.py) -/

/-- The bridge's cache of last known values, from `iOSToUnityBridge.__init__`
(lines 22-24): `last_hrv = 0`, `last_breathing_phase = ""`,
`last_phase_duration = 0`. -/
structure BridgeCache where
  last_hrv : ℚ
  last_breathing_phase : String
  last_phase_duration : ℚ
deriving DecidableEq, Repr

/-- Initial cache values set in `__init__`. -/
def initCache : BridgeCache := { last_hrv := 0, last_breathing_phase := "", last_phase_duration := 0 }

/-- An inbound iOS JSON message.  Every field the bridge reads is optional
(read with `in`-tests or `dict.get`); `session_active` and `device` are never
read by the bridge and are omitted. -/
structure IOSMessage where
  heart_rate : Option ℚ
  hrv : Option ℚ
  breathing_phase : Option String
  phase_duration : Option ℚ
  timestamp : Option ℚ
deriving DecidableEq, Repr

/-- The message `{}` supplying no fields. -/
def emptyMsg : IOSMessage := { heart_rate := none, hrv := none, breathing_phase := none, phase_duration := none, timestamp := none }

/-- A JSON value appearing in the bridge's outbound Unity dictionary:
either a number or a string. -/
inductive UValue where
  | num (q : ℚ)
  | str (s : String)
deriving DecidableEq, Repr

/-- The cache-update prefix of `convert_to_unity_format` (lines 87-94):
`hrv` is cached when present and `> 0`; `breathing_phase` when present and
truthy (a non-empty string); `phase_duration` whenever present (the third
`if` tests only membership, not the value). -/
def updateCache (c : BridgeCache) (m : IOSMessage) : BridgeCache :=
  let c1 := match m.hrv with
    | some v => if v > 0 then { c with last_hrv := v } else c
    | none => c
  let c2 := match m.breathing_phase with
    | some s => if s ≠ "" then { c1 with last_breathing_phase := s } else c1
    | none => c1
  match m.phase_duration with
    | some v => { c2 with last_phase_duration := v }
    | none => c2

/-- Source `convert_to_unity_format` (lines 81-108): updates the cache, then builds
the Unity dictionary in source order.  `now` stands for `time.time()`, the
default used when the message carries no `timestamp`.  Returns the new cache
(the mutated `self` fields) and the output dictionary as an association
list. -/
def convert_to_unity_format (c : BridgeCache) (m : IOSMessage) (now : ℚ) :
    BridgeCache × List (String × UValue) :=
  let c' := updateCache c m
  (c', [("heart_rate_bpm", .num (m.heart_rate.getD 0)),
        ("hrv", .num c'.last_hrv),
        ("breathing_phase", .str c'.last_breathing_phase),
        ("phase_duration", .num c'.last_phase_duration),
        ("force", .num 0),
        ("resp_rate_bpm", .num 0),
        ("steps", .num 0),
        ("step_rate_spm", .num 0),
        ("t", .num (m.timestamp.getD now))])

/-- One iteration of the `receive_from_ios` loop body (lines 61-79) on a
single datagram.  `none` stands for a datagram whose UTF-8 decode or JSON
parse raised: the `except` clause catches the error, prints it, and the loop
continues, so nothing is forwarded and the cache is untouched.  `some m`
stands for a datagram that parsed to message `m`: it is converted (updating
the cache) and the result sent to Unity. -/
def receive_step (c : BridgeCache) (d : Option IOSMessage) (now : ℚ) :
    BridgeCache × List (List (String × UValue)) :=
  match d with
  | none => (c, [])
  | some m =>
    let r := convert_to_unity_format c m now
    (r.1, [r.2])

/-- Running the receive loop over a list of inbound datagrams, collecting
every dictionary forwarded to Unity. -/
def receive_run (c : BridgeCache) (ds : List (Option IOSMessage)) (now : ℚ) :
    BridgeCache × List (List (String × UValue)) :=
  ds.foldl (fun acc d =>
    let r := receive_step acc.1 d now
    (r.1, acc.2 ++ r.2)) (c, [])

/-- Feeding a list of parsed messages through the cache update only. -/
def runCache (c : BridgeCache) (ms : List IOSMessage) : BridgeCache :=
  ms.foldl updateCache c

/-! ## Windowed analyzer (src/python/enhanced_belt_analysis.py) -/

/-- Appending one element to a `collections.deque` with `maxlen = C`:
the element goes on the right, and elements are discarded from the left
until the length is at most `C`. -/
def dequeAppend (C : ℕ) (l : List ℚ) (x : ℚ) : List ℚ :=
  (l ++ [x]).drop (l.length + 1 - C)

/-- Python's built-in `max` over a non-empty sequence (a left fold of the
binary max over the elements).  `max()` on an empty sequence raises; the
`[]` case below is unreachable at every call site because of the
`len(...) < 10` guard, and is given the dummy value `0`. -/
def listMax : List ℚ → ℚ
  | [] => 0
  | x :: xs => xs.foldl max x

/-- Python's built-in `min` over a non-empty sequence; as for `listMax`,
the `[]` case is unreachable under the guards. -/
def listMin : List ℚ → ℚ
  | [] => 0
  | x :: xs => xs.foldl min x

/-- Library `statistics.mean`: the arithmetic mean of a list.  (On an empty list the
library raises; callers guard for non-emptiness.) -/
def meanQ (l : List ℚ) : ℚ := l.sum / l.length

/-- Inside `statistics.stdev`: the sample variance `Σ(x - mean)² / (n - 1)`.  For
rational data this is rational; only the final square root leaves ℚ. -/
def varianceQ (l : List ℚ) : ℚ :=
  (l.map (fun x => (x - meanQ l) ^ 2)).sum / ((l.length - 1 : ℕ) : ℚ)

/-- Library `statistics.stdev`: the square root of the sample variance. -/
noncomputable def stdevR (l : List ℚ) : ℝ := Real.sqrt ((varianceQ l : ℚ) : ℝ)

/-- Library `statistics.stdev` as a fallible computation: it raises
`StatisticsError` when given fewer than two data points, and succeeds on any
list of two or more (rational/float) values.  `none` models the raise. -/
noncomputable def stdevOpt (l : List ℚ) : Option ℝ :=
  if 2 ≤ l.length then some (stdevR l) else none

/-- The `try`/`except` body of `_update_breathing_regularity` (lines 49-54):
normalize a successful standard deviation to `max(0, 1 - std_dev / 10)`; if
the computation raised, the `except` branch yields `0`. -/
noncomputable def regularityCompute (l : List ℚ) : ℝ :=
  match stdevOpt l with
  | some s => max 0 (1 - s / 10)
  | none => 0

/-- The mutable state of `BreathingAnalyzer` (lines 10-23).  The three
buffers are deques with `maxlen = window_size`; the derived metrics start
at `0`.  `breathing_regularity` lives in ℝ because its update takes a
square root; everything else is exact rational arithmetic. -/
structure BreathingAnalyzer where
  window_size : ℕ
  force_history : List ℚ
  resp_rate_history : List ℚ
  timestamps : List ℚ
  last_breath_time : ℚ
  breath_count : ℕ
  session_start : ℚ
  breathing_depth : ℚ
  breathing_regularity : ℝ
  breathing_intensity : ℚ

/-- Constructor `BreathingAnalyzer.__init__(window_size)`; `now` stands for the
`time.time()` recorded as `session_start`. -/
def BreathingAnalyzer.init (window_size : ℕ) (now : ℚ) : BreathingAnalyzer :=
  { window_size := window_size, force_history := [], resp_rate_history := [],
    timestamps := [], last_breath_time := 0, breath_count := 0,
    session_start := now, breathing_depth := 0, breathing_regularity := 0,
    breathing_intensity := 0 }

/-- Method `_update_breathing_depth` (lines 36-42): returns the new value of
`breathing_depth` — unchanged if the force buffer holds fewer than 10
samples, else `max - min` of the buffer. -/
def update_breathing_depth (a : BreathingAnalyzer) : ℚ :=
  if a.force_history.length < 10 then a.breathing_depth
  else listMax a.force_history - listMin a.force_history

/-- Method `_update_breathing_regularity` (lines 44-54): returns the new value of
`breathing_regularity` — unchanged if the resp-rate buffer holds fewer than
10 samples, else the `try`/`except` computation `regularityCompute`. -/
noncomputable def update_breathing_regularity (a : BreathingAnalyzer) : ℝ :=
  if a.resp_rate_history.length < 10 then a.breathing_regularity
  else regularityCompute a.resp_rate_history

/-- Method `_update_breathing_intensity` (lines 56-62): returns the new value of
`breathing_intensity` — unchanged if the force buffer holds fewer than 5
samples, else the mean absolute buffered force. -/
def update_breathing_intensity (a : BreathingAnalyzer) : ℚ :=
  if a.force_history.length < 5 then a.breathing_intensity
  else meanQ (a.force_history.map (fun f => |f|))

/-- Method `add_sample(force, resp_rate, timestamp)` (lines 25-33): append to the
three deques, then recompute the three derived metrics on the new buffers
(each update reads only the buffers and its own previous value, so the
sequential Python updates equal this simultaneous record update). -/
noncomputable def add_sample (a : BreathingAnalyzer) (force resp_rate timestamp : ℚ) :
    BreathingAnalyzer :=
  let a1 := { a with
    force_history := dequeAppend a.window_size a.force_history force,
    resp_rate_history := dequeAppend a.window_size a.resp_rate_history resp_rate,
    timestamps := dequeAppend a.window_size a.timestamps timestamp }
  { a1 with
    breathing_depth := update_breathing_depth a1,
    breathing_regularity := update_breathing_regularity a1,
    breathing_intensity := update_breathing_intensity a1 }

/-- Method `_calculate_trend(data)` (lines 76-87): `0` for fewer than 5 samples;
otherwise compare the last and first entries of the last five
(`recent = list(data)[-5:]`, `recent[-1]` vs `recent[0] ± 0.1`). -/
def calculate_trend (l : List ℚ) : ℤ :=
  if l.length < 5 then 0
  else
    let recent := l.drop (l.length - 5)
    if recent.getLastD 0 > recent.headD 0 + 1 / 10 then 1
    else if recent.getLastD 0 < recent.headD 0 - 1 / 10 then -1
    else 0

/-- The snapshot returned by `get_derived_metrics` (lines 64-74). -/
structure DerivedMetrics where
  breathing_depth : ℚ
  breathing_regularity : ℝ
  breathing_intensity : ℚ
  session_duration : ℚ
  avg_resp_rate : ℚ
  force_trend : ℤ
  resp_rate_trend : ℤ

/-- Method `get_derived_metrics()` (lines 64-74); `now` stands for the
`time.time()` used for `session_duration`. -/
noncomputable def get_derived_metrics (a : BreathingAnalyzer) (now : ℚ) : DerivedMetrics :=
  { breathing_depth := a.breathing_depth,
    breathing_regularity := a.breathing_regularity,
    breathing_intensity := a.breathing_intensity,
    session_duration := now - a.session_start,
    avg_resp_rate := if a.resp_rate_history ≠ [] then meanQ a.resp_rate_history else 0,
    force_trend := calculate_trend a.force_history,
    resp_rate_trend := calculate_trend a.resp_rate_history }

/-- A sample fed to `add_sample`: `(force, resp_rate, timestamp)`. -/
abbrev Sample := ℚ × ℚ × ℚ

/-- Feeding a list of samples, in order, to a freshly constructed
`BreathingAnalyzer(window_size = C)`. -/
noncomputable def runW (C : ℕ) (now : ℚ) (samples : List Sample) : BreathingAnalyzer :=
  samples.foldl (fun a s => add_sample a s.1 s.2.1 s.2.2) (BreathingAnalyzer.init C now)

/-- Feeding samples to an analyzer with the default `window_size = 50`. -/
noncomputable def runAnalyzer (now : ℚ) (samples : List Sample) : BreathingAnalyzer :=
  runW 50 now samples

/-! ## Helper lemmas: deque folds and buffer shapes -/

lemma dequeAppend_length (C : ℕ) (l : List ℚ) (x : ℚ) :
    (dequeAppend C l x).length = min (l.length + 1) C := by
  simp [dequeAppend]
  omega

lemma foldl_dequeAppend (C : ℕ) :
    ∀ (xs l : List ℚ), l.length ≤ C →
      xs.foldl (dequeAppend C) l = (l ++ xs).drop (l.length + xs.length - C) := by
  intro xs
  induction xs with
  | nil =>
    intro l h
    have h0 : l.length - C = 0 := by omega
    simp [h0]
  | cons x xs ih =>
    intro l h
    have hk : l.length + 1 - C ≤ (l ++ [x]).length := by simp
    have hlen : (dequeAppend C l x).length = min (l.length + 1) C :=
      dequeAppend_length C l x
    calc (x :: xs).foldl (dequeAppend C) l
        = xs.foldl (dequeAppend C) (dequeAppend C l x) := by rw [List.foldl_cons]
      _ = ((dequeAppend C l x) ++ xs).drop ((dequeAppend C l x).length + xs.length - C) := by
          apply ih
          rw [hlen]; omega
      _ = (l ++ x :: xs).drop (l.length + (x :: xs).length - C) := by
          rw [hlen]
          unfold dequeAppend
          rw [← List.drop_append_of_le_length hk, List.drop_drop]
          have hxl : l ++ [x] ++ xs = l ++ x :: xs := by simp
          rw [hxl]
          congr 1
          simp only [List.length_cons]
          omega

lemma buffers_after_run (samples : List Sample) :
    ∀ a : BreathingAnalyzer,
      (samples.foldl (fun a s => add_sample a s.1 s.2.1 s.2.2) a).window_size = a.window_size ∧
      (samples.foldl (fun a s => add_sample a s.1 s.2.1 s.2.2) a).force_history =
        (samples.map (fun s => s.1)).foldl (dequeAppend a.window_size) a.force_history ∧
      (samples.foldl (fun a s => add_sample a s.1 s.2.1 s.2.2) a).resp_rate_history =
        (samples.map (fun s => s.2.1)).foldl (dequeAppend a.window_size) a.resp_rate_history ∧
      (samples.foldl (fun a s => add_sample a s.1 s.2.1 s.2.2) a).timestamps =
        (samples.map (fun s => s.2.2)).foldl (dequeAppend a.window_size) a.timestamps := by
  induction samples with
  | nil => intro a; simp
  | cons s ss ih =>
    intro a
    obtain ⟨hw, hf, hr, ht⟩ := ih (add_sample a s.1 s.2.1 s.2.2)
    refine ⟨?_, ?_, ?_, ?_⟩ <;>
      simp only [List.foldl_cons, List.map_cons, hw, hf, hr, ht] <;>
      simp [add_sample]

lemma runW_window (C : ℕ) (now : ℚ) (samples : List Sample) :
    (runW C now samples).window_size = C :=
  (buffers_after_run samples (BreathingAnalyzer.init C now)).1

lemma runW_force (C : ℕ) (now : ℚ) (samples : List Sample) :
    (runW C now samples).force_history =
      (samples.map (fun s => s.1)).drop (samples.length - C) := by
  have h := (buffers_after_run samples (BreathingAnalyzer.init C now)).2.1
  rw [runW, h]
  simp only [BreathingAnalyzer.init]
  rw [foldl_dequeAppend C _ _ (by simp)]
  simp

lemma runW_resp (C : ℕ) (now : ℚ) (samples : List Sample) :
    (runW C now samples).resp_rate_history =
      (samples.map (fun s => s.2.1)).drop (samples.length - C) := by
  have h := (buffers_after_run samples (BreathingAnalyzer.init C now)).2.2.1
  rw [runW, h]
  simp only [BreathingAnalyzer.init]
  rw [foldl_dequeAppend C _ _ (by simp)]
  simp

lemma runW_timestamps (C : ℕ) (now : ℚ) (samples : List Sample) :
    (runW C now samples).timestamps =
      (samples.map (fun s => s.2.2)).drop (samples.length - C) := by
  have h := (buffers_after_run samples (BreathingAnalyzer.init C now)).2.2.2
  rw [runW, h]
  simp only [BreathingAnalyzer.init]
  rw [foldl_dequeAppend C _ _ (by simp)]
  simp

lemma runW_force_length (C : ℕ) (now : ℚ) (samples : List Sample) :
    (runW C now samples).force_history.length = min samples.length C := by
  rw [runW_force]
  simp
  omega

lemma runW_resp_length (C : ℕ) (now : ℚ) (samples : List Sample) :
    (runW C now samples).resp_rate_history.length = min samples.length C := by
  rw [runW_resp]
  simp
  omega

lemma runW_timestamps_length (C : ℕ) (now : ℚ) (samples : List Sample) :
    (runW C now samples).timestamps.length = min samples.length C := by
  rw [runW_timestamps]
  simp
  omega

lemma add_sample_force (a : BreathingAnalyzer) (f r t : ℚ) :
    (add_sample a f r t).force_history = dequeAppend a.window_size a.force_history f := rfl

lemma add_sample_resp (a : BreathingAnalyzer) (f r t : ℚ) :
    (add_sample a f r t).resp_rate_history = dequeAppend a.window_size a.resp_rate_history r := rfl

lemma add_sample_depth (a : BreathingAnalyzer) (f r t : ℚ) :
    (add_sample a f r t).breathing_depth =
      if (dequeAppend a.window_size a.force_history f).length < 10 then a.breathing_depth
      else listMax (dequeAppend a.window_size a.force_history f) -
        listMin (dequeAppend a.window_size a.force_history f) := rfl

lemma add_sample_regularity (a : BreathingAnalyzer) (f r t : ℚ) :
    (add_sample a f r t).breathing_regularity =
      if (dequeAppend a.window_size a.resp_rate_history r).length < 10 then a.breathing_regularity
      else regularityCompute (dequeAppend a.window_size a.resp_rate_history r) := rfl

lemma runW_append_singleton (C : ℕ) (now : ℚ) (ys : List Sample) (s : Sample) :
    runW C now (ys ++ [s]) = add_sample (runW C now ys) s.1 s.2.1 s.2.2 := by
  simp [runW, List.foldl_append]

lemma runW_depth (C : ℕ) (hC : 10 ≤ C) (now : ℚ) :
    ∀ samples : List Sample,
      (samples.length < 10 → (runW C now samples).breathing_depth = 0) ∧
      (10 ≤ samples.length →
        (runW C now samples).breathing_depth =
          listMax (runW C now samples).force_history -
            listMin (runW C now samples).force_history) := by
  intro samples
  induction samples using List.reverseRecOn with
  | nil =>
    constructor
    · intro _; simp [runW, BreathingAnalyzer.init]
    · intro h; simp at h
  | append_singleton ys s ih =>
    have hwin : (runW C now ys).window_size = C := runW_window C now ys
    have hflen : (runW C now ys).force_history.length = min ys.length C :=
      runW_force_length C now ys
    have hnewlen : (dequeAppend C (runW C now ys).force_history s.1).length =
        min (min ys.length C + 1) C := by
      rw [dequeAppend_length, hflen]
    constructor
    · intro h
      have h1 : ys.length + 1 < 10 := by simpa using h
      rw [runW_append_singleton, add_sample_depth, hwin, if_pos (by rw [hnewlen]; omega)]
      exact ih.1 (by omega)
    · intro h
      have h1 : 10 ≤ ys.length + 1 := by simpa using h
      rw [runW_append_singleton, add_sample_depth, add_sample_force, hwin,
        if_neg (by rw [hnewlen]; omega)]

lemma runW_regularity (C : ℕ) (hC : 10 ≤ C) (now : ℚ) :
    ∀ samples : List Sample,
      (samples.length < 10 → (runW C now samples).breathing_regularity = 0) ∧
      (10 ≤ samples.length →
        (runW C now samples).breathing_regularity =
          regularityCompute (runW C now samples).resp_rate_history) := by
  intro samples
  induction samples using List.reverseRecOn with
  | nil =>
    constructor
    · intro _; simp [runW, BreathingAnalyzer.init]
    · intro h; simp at h
  | append_singleton ys s ih =>
    have hwin : (runW C now ys).window_size = C := runW_window C now ys
    have hrlen : (runW C now ys).resp_rate_history.length = min ys.length C :=
      runW_resp_length C now ys
    have hnewlen : (dequeAppend C (runW C now ys).resp_rate_history s.2.1).length =
        min (min ys.length C + 1) C := by
      rw [dequeAppend_length, hrlen]
    constructor
    · intro h
      have h1 : ys.length + 1 < 10 := by simpa using h
      rw [runW_append_singleton, add_sample_regularity, hwin, if_pos (by rw [hnewlen]; omega)]
      exact ih.1 (by omega)
    · intro h
      have h1 : 10 ≤ ys.length + 1 := by simpa using h
      rw [runW_append_singleton, add_sample_regularity, add_sample_resp, hwin,
        if_neg (by rw [hnewlen]; omega)]

lemma regularityCompute_eq (l : List ℚ) (h : 2 ≤ l.length) :
    regularityCompute l = max 0 (1 - stdevR l / 10) := by
  simp [regularityCompute, stdevOpt, h]

lemma max_regularity_nonneg (s : ℝ) : (0 : ℝ) ≤ max 0 (1 - s / 10) := le_max_left _ _

lemma max_regularity_le_one (s : ℝ) (hs : 0 ≤ s) : max 0 (1 - s / 10) ≤ 1 := by
  apply max_le
  · norm_num
  · linarith

lemma max_regularity_eq_iff (s : ℝ) : max 0 (1 - s / 10) = 1 - s / 10 ↔ s ≤ 10 := by
  constructor
  · intro h
    have h0 : (0 : ℝ) ≤ 1 - s / 10 := max_eq_right_iff.mp h
    linarith
  · intro h
    exact max_eq_right (by linarith)

lemma foldl_max_map_add (c : ℚ) :
    ∀ (xs : List ℚ) (x : ℚ), (xs.map (fun y => y + c)).foldl max (x + c) = xs.foldl max x + c := by
  intro xs
  induction xs with
  | nil => intro x; simp
  | cons y ys ih =>
    intro x
    simp only [List.map_cons, List.foldl_cons]
    rw [max_add_add_right]
    exact ih (max x y)

lemma foldl_min_map_add (c : ℚ) :
    ∀ (xs : List ℚ) (x : ℚ), (xs.map (fun y => y + c)).foldl min (x + c) = xs.foldl min x + c := by
  intro xs
  induction xs with
  | nil => intro x; simp
  | cons y ys ih =>
    intro x
    simp only [List.map_cons, List.foldl_cons]
    rw [min_add_add_right]
    exact ih (min x y)

lemma listMax_map_add (c : ℚ) (l : List ℚ) (h : l ≠ []) :
    listMax (l.map (fun y => y + c)) = listMax l + c := by
  cases l with
  | nil => exact absurd rfl h
  | cons x xs => simpa [listMax] using foldl_max_map_add c xs x

lemma listMin_map_add (c : ℚ) (l : List ℚ) (h : l ≠ []) :
    listMin (l.map (fun y => y + c)) = listMin l + c := by
  cases l with
  | nil => exact absurd rfl h
  | cons x xs => simpa [listMin] using foldl_min_map_add c xs x

lemma updateCache_fields (c : BridgeCache) (m : IOSMessage) :
    (updateCache c m).last_hrv =
      (match m.hrv with
        | some v => if v > 0 then v else c.last_hrv
        | none => c.last_hrv) ∧
    (updateCache c m).last_breathing_phase =
      (match m.breathing_phase with
        | some s => if s ≠ "" then s else c.last_breathing_phase
        | none => c.last_breathing_phase) ∧
    (updateCache c m).last_phase_duration =
      (match m.phase_duration with
        | some v => v
        | none => c.last_phase_duration) := by
  rcases hh : m.hrv with _ | v <;> rcases hb : m.breathing_phase with _ | s <;>
    rcases hd : m.phase_duration with _ | d <;>
    simp only [updateCache, hh, hb, hd] <;> (try split_ifs) <;> simp_all

/-! ## Claim theorems -/

/-- C1 counterexample: the claim says every cached field — `phase_duration`
included — is overwritten only by a present, non-default value.  But the
code's third `if` tests only presence, so the message sequence
`{phase_duration: 2.5}`, `{phase_duration: 0}` leaves the cache at the
default `0`, not at the retained `2.5` the claim predicts. -/
theorem phase_duration_zero_overwrites :
    (runCache initCache
      [{ emptyMsg with phase_duration := some (5 / 2) },
       { emptyMsg with phase_duration := some 0 }]).last_phase_duration = 0 ∧
    ¬ (runCache initCache
      [{ emptyMsg with phase_duration := some (5 / 2) },
       { emptyMsg with phase_duration := some 0 }]).last_phase_duration = 5 / 2 := by
  have h : (runCache initCache
      [{ emptyMsg with phase_duration := some (5 / 2) },
       { emptyMsg with phase_duration := some 0 }]).last_phase_duration = 0 := rfl
  refine ⟨h, ?_⟩
  rw [h]
  norm_num

/-- C1 (amended): `hrv` is cached only when present and strictly positive,
`breathing_phase` only when present and non-empty, but `phase_duration` is
cached whenever present — even when it carries the default value `0`;
absent fields always leave the cache unchanged.  In particular, after the
sequence `{hrv:45}`, `{}`, `{hrv:0}` the cached hrv is still 45. -/
theorem cache_update_policy :
    (∀ (c : BridgeCache) (m : IOSMessage),
      (∀ v, m.hrv = some v → 0 < v → (updateCache c m).last_hrv = v) ∧
      (m.hrv = none → (updateCache c m).last_hrv = c.last_hrv) ∧
      (∀ v, m.hrv = some v → v ≤ 0 → (updateCache c m).last_hrv = c.last_hrv) ∧
      (∀ s, m.breathing_phase = some s → s ≠ "" →
        (updateCache c m).last_breathing_phase = s) ∧
      (m.breathing_phase = none →
        (updateCache c m).last_breathing_phase = c.last_breathing_phase) ∧
      (m.breathing_phase = some "" →
        (updateCache c m).last_breathing_phase = c.last_breathing_phase) ∧
      (∀ v, m.phase_duration = some v → (updateCache c m).last_phase_duration = v) ∧
      (m.phase_duration = none →
        (updateCache c m).last_phase_duration = c.last_phase_duration)) ∧
    (runCache initCache
      [{ emptyMsg with hrv := some 45 }, emptyMsg,
       { emptyMsg with hrv := some 0 }]).last_hrv = 45 := by
  constructor
  · intro c m
    obtain ⟨h1, h2, h3⟩ := updateCache_fields c m
    refine ⟨?_, ?_, ?_, ?_, ?_, ?_, ?_, ?_⟩
    · intro v hv hpos
      rw [h1, hv]
      simp [hpos]
    · intro hv
      rw [h1, hv]
    · intro v hv hnonpos
      rw [h1, hv]
      simp only [gt_iff_lt]
      rw [if_neg (by linarith)]
    · intro s hs hne
      rw [h2, hs]
      simp [hne]
    · intro hs
      rw [h2, hs]
    · intro hs
      rw [h2, hs]
      simp
    · intro v hv
      rw [h3, hv]
    · intro hv
      rw [h3, hv]
  · rfl

/-- C3: for every incoming message the forwarded dictionary has exactly the
nine fixed keys in order; `force`, `resp_rate_bpm`, `steps` and
`step_rate_spm` are always 0; and the very first call on a message that
supplies no field produces the defaults 0 / empty string for heart rate,
hrv, breathing phase and phase duration (with `t` falling back to the
current time). -/
theorem unity_output_shape :
    (∀ (c : BridgeCache) (m : IOSMessage) (now : ℚ),
      (convert_to_unity_format c m now).2.map Prod.fst =
        ["heart_rate_bpm", "hrv", "breathing_phase", "phase_duration", "force",
          "resp_rate_bpm", "steps", "step_rate_spm", "t"] ∧
      List.lookup "force" (convert_to_unity_format c m now).2 = some (UValue.num 0) ∧
      List.lookup "resp_rate_bpm" (convert_to_unity_format c m now).2 = some (UValue.num 0) ∧
      List.lookup "steps" (convert_to_unity_format c m now).2 = some (UValue.num 0) ∧
      List.lookup "step_rate_spm" (convert_to_unity_format c m now).2 = some (UValue.num 0)) ∧
    (∀ now : ℚ,
      (convert_to_unity_format initCache emptyMsg now).2 =
        [("heart_rate_bpm", UValue.num 0), ("hrv", UValue.num 0),
          ("breathing_phase", UValue.str ""), ("phase_duration", UValue.num 0),
          ("force", UValue.num 0), ("resp_rate_bpm", UValue.num 0),
          ("steps", UValue.num 0), ("step_rate_spm", UValue.num 0),
          ("t", UValue.num now)]) := by
  constructor
  · intro c m now
    refine ⟨rfl, ?_, ?_, ?_, ?_⟩ <;> simp [convert_to_unity_format, List.lookup]
  · intro now
    rfl

/-- C8: a datagram whose decode/parse raised is caught by the loop's
`except`: nothing is forwarded for it, the cache is untouched, and the run
over any surrounding sequence of datagrams is exactly the run with that
datagram removed — the loop keeps processing. -/
theorem malformed_datagram_dropped :
    (∀ (c : BridgeCache) (now : ℚ), receive_step c none now = (c, [])) ∧
    (∀ (c : BridgeCache) (ds1 ds2 : List (Option IOSMessage)) (now : ℚ),
      receive_run c (ds1 ++ none :: ds2) now = receive_run c (ds1 ++ ds2) now) := by
  constructor
  · intro c now
    rfl
  · intro c ds1 ds2 now
    simp only [receive_run, List.foldl_append, List.foldl_cons]
    congr 1
    simp [receive_step]

/-- C9 (implicit): `heart_rate` is read with `.get("heart_rate", 0)` and is
never cached, so whatever the cache holds, a message lacking the key is
forwarded with `heart_rate_bpm = 0`. -/
theorem heart_rate_not_cached (c : BridgeCache) (m : IOSMessage) (now : ℚ)
    (h : m.heart_rate = none) :
    List.lookup "heart_rate_bpm" (convert_to_unity_format c m now).2 =
      some (UValue.num 0) := by
  simp [convert_to_unity_format, List.lookup, h]

/-- Witness for C9: the second message lacks `heart_rate` although the first
supplied 75, and the forwarded value is 0. -/
theorem heart_rate_not_cached_witness :
    emptyMsg.heart_rate = none ∧
    List.lookup "heart_rate_bpm"
      (convert_to_unity_format
        (convert_to_unity_format initCache
          { emptyMsg with heart_rate := some 75, hrv := some 45 } 0).1
        emptyMsg 0).2 = some (UValue.num 0) :=
  ⟨rfl, heart_rate_not_cached _ emptyMsg 0 rfl⟩

/-- C2: for every window capacity C, each of the three rolling buffers holds
exactly the last `min N C` appended values in insertion order (the suffix
`drop (N - C)` of the inputs): after `N > C` appends its length is exactly
`C`, after `N ≤ C` appends it is `N`, and it never exceeds the capacity. -/
theorem rolling_buffers_bounded (C : ℕ) (now : ℚ) (samples : List Sample) :
    ((runW C now samples).force_history =
        (samples.map (fun s => s.1)).drop (samples.length - C) ∧
      (runW C now samples).force_history.length = min samples.length C) ∧
    ((runW C now samples).resp_rate_history =
        (samples.map (fun s => s.2.1)).drop (samples.length - C) ∧
      (runW C now samples).resp_rate_history.length = min samples.length C) ∧
    ((runW C now samples).timestamps =
        (samples.map (fun s => s.2.2)).drop (samples.length - C) ∧
      (runW C now samples).timestamps.length = min samples.length C) :=
  ⟨⟨runW_force C now samples, runW_force_length C now samples⟩,
   ⟨runW_resp C now samples, runW_resp_length C now samples⟩,
   ⟨runW_timestamps C now samples, runW_timestamps_length C now samples⟩⟩

/-- C6: `_calculate_trend` returns 0 on fewer than 5 samples; otherwise it
compares the last entry of the final five against the first of those five
with a 0.1 dead band: `+1` above, `-1` below, `0` within.  The three
concrete tails behave as the spec says. -/
theorem calculate_trend_spec (l : List ℚ) :
    (l.length < 5 → calculate_trend l = 0) ∧
    (5 ≤ l.length →
      ((l.drop (l.length - 5)).getLastD 0 > (l.drop (l.length - 5)).headD 0 + 1 / 10 →
        calculate_trend l = 1) ∧
      ((l.drop (l.length - 5)).getLastD 0 < (l.drop (l.length - 5)).headD 0 - 1 / 10 →
        calculate_trend l = -1) ∧
      (¬ (l.drop (l.length - 5)).getLastD 0 > (l.drop (l.length - 5)).headD 0 + 1 / 10 →
       ¬ (l.drop (l.length - 5)).getLastD 0 < (l.drop (l.length - 5)).headD 0 - 1 / 10 →
        calculate_trend l = 0)) ∧
    calculate_trend [1, 1, 1, 1, 2] = 1 ∧
    calculate_trend [2, 1, 1, 1, 1] = -1 ∧
    calculate_trend [1, 1, 1, 1, 1] = 0 := by
  refine ⟨?_, ?_, by norm_num [calculate_trend], by norm_num [calculate_trend],
    by norm_num [calculate_trend]⟩
  · intro h
    simp [calculate_trend, h]
  · intro h5
    refine ⟨?_, ?_, ?_⟩
    · intro hgt
      unfold calculate_trend
      rw [if_neg (by omega)]
      simp only
      rw [if_pos hgt]
    · intro hlt
      unfold calculate_trend
      rw [if_neg (by omega)]
      simp only
      rw [if_neg (by push_neg; linarith), if_pos hlt]
    · intro hngt hnlt
      unfold calculate_trend
      rw [if_neg (by omega)]
      simp only
      rw [if_neg hngt, if_neg hnlt]

lemma metrics_depth (a : BreathingAnalyzer) (tnow : ℚ) :
    (get_derived_metrics a tnow).breathing_depth = a.breathing_depth := rfl

lemma metrics_regularity (a : BreathingAnalyzer) (tnow : ℚ) :
    (get_derived_metrics a tnow).breathing_regularity = a.breathing_regularity := rfl

/-- C4: with the default window of 50, `breathing_depth` reported by
`get_derived_metrics` is 0 until ten samples have been appended, and from
then on equals max − min of the current force buffer. -/
theorem breathing_depth_spec (now tnow : ℚ) (samples : List Sample) :
    (samples.length < 10 →
      (get_derived_metrics (runAnalyzer now samples) tnow).breathing_depth = 0) ∧
    (10 ≤ samples.length →
      (get_derived_metrics (runAnalyzer now samples) tnow).breathing_depth =
        listMax (runAnalyzer now samples).force_history -
          listMin (runAnalyzer now samples).force_history) := by
  have h := runW_depth 50 (by norm_num) now samples
  constructor
  · intro hn
    rw [metrics_depth, runAnalyzer]
    exact h.1 hn
  · intro hn
    rw [metrics_depth, runAnalyzer]
    exact h.2 hn

/-- C7: breathing depth is invariant under a uniform additive shift of the
force samples once at least ten samples have been fed. -/
theorem depth_shift_invariant (now c : ℚ) (samples : List Sample)
    (h : 10 ≤ samples.length) :
    (runAnalyzer now (samples.map (fun s => (s.1 + c, s.2.1, s.2.2)))).breathing_depth =
      (runAnalyzer now samples).breathing_depth := by
  have hlen : (samples.map (fun s => ((s.1 + c, s.2.1, s.2.2) : Sample))).length
      = samples.length := by simp
  have hd1 := (runW_depth 50 (by norm_num) now
    (samples.map (fun s => (s.1 + c, s.2.1, s.2.2)))).2 (by rw [hlen]; exact h)
  have hd2 := (runW_depth 50 (by norm_num) now samples).2 h
  have hb1 : (runW 50 now (samples.map (fun s => (s.1 + c, s.2.1, s.2.2)))).force_history =
      ((runW 50 now samples).force_history).map (fun y => y + c) := by
    rw [runW_force, runW_force, hlen]
    rw [show (samples.map (fun s => ((s.1 + c, s.2.1, s.2.2) : Sample))).map (fun s => s.1)
        = (samples.map (fun s => s.1)).map (fun y => y + c) from by
      rw [List.map_map, List.map_map]
      rfl]
    rw [List.map_drop]
  have hne : (runW 50 now samples).force_history ≠ [] := by
    intro hemp
    have hl := runW_force_length 50 now samples
    rw [hemp] at hl
    simp at hl
    omega
  rw [runAnalyzer, runAnalyzer, hd1, hd2, hb1,
    listMax_map_add c _ hne, listMin_map_add c _ hne]
  ring

/-- Witness for C7: ten concrete samples shifted by 1 give the same depth. -/
theorem depth_shift_invariant_witness :
    10 ≤ (List.replicate 10 ((0 : ℚ), (0 : ℚ), (0 : ℚ))).length ∧
    (runAnalyzer 0 ((List.replicate 10 ((0 : ℚ), (0 : ℚ), (0 : ℚ))).map
        (fun s => (s.1 + 1, s.2.1, s.2.2)))).breathing_depth =
      (runAnalyzer 0 (List.replicate 10 ((0 : ℚ), (0 : ℚ), (0 : ℚ)))).breathing_depth :=
  ⟨by decide, depth_shift_invariant 0 1 _ (by decide)⟩

/-- C5: with the default window of 50, `breathing_regularity` reported by
`get_derived_metrics` is 0 before ten samples; from ten samples on it equals
`max(0, 1 - stdev(resp buffer)/10)`, hence lies in [0,1] and equals
`1 - stdev/10` exactly when the standard deviation is at most 10; and
whenever the standard-deviation computation fails the `except` branch
yields 0. -/
theorem breathing_regularity_spec (now tnow : ℚ) (samples : List Sample) :
    (samples.length < 10 →
      (get_derived_metrics (runAnalyzer now samples) tnow).breathing_regularity = 0) ∧
    (10 ≤ samples.length →
      (get_derived_metrics (runAnalyzer now samples) tnow).breathing_regularity =
        max 0 (1 - stdevR (runAnalyzer now samples).resp_rate_history / 10) ∧
      0 ≤ (get_derived_metrics (runAnalyzer now samples) tnow).breathing_regularity ∧
      (get_derived_metrics (runAnalyzer now samples) tnow).breathing_regularity ≤ 1 ∧
      ((get_derived_metrics (runAnalyzer now samples) tnow).breathing_regularity =
          1 - stdevR (runAnalyzer now samples).resp_rate_history / 10 ↔
        stdevR (runAnalyzer now samples).resp_rate_history ≤ 10)) ∧
    (∀ l : List ℚ, stdevOpt l = none → regularityCompute l = 0) := by
  refine ⟨?_, ?_, ?_⟩
  · intro hn
    rw [metrics_regularity, runAnalyzer]
    exact (runW_regularity 50 (by norm_num) now samples).1 hn
  · intro hn
    have hlen : 2 ≤ (runW 50 now samples).resp_rate_history.length := by
      rw [runW_resp_length]
      omega
    have hreg : (runAnalyzer now samples).breathing_regularity =
        max 0 (1 - stdevR (runAnalyzer now samples).resp_rate_history / 10) := by
      rw [runAnalyzer, (runW_regularity 50 (by norm_num) now samples).2 hn,
        regularityCompute_eq _ hlen]
    have hs : 0 ≤ stdevR (runAnalyzer now samples).resp_rate_history :=
      Real.sqrt_nonneg _
    rw [metrics_regularity]
    refine ⟨hreg, ?_, ?_, ?_⟩
    · rw [hreg]
      exact le_max_left _ _
    · rw [hreg]
      exact max_regularity_le_one _ hs
    · rw [hreg]
      exact max_regularity_eq_iff _
  · intro l hl
    simp [regularityCompute, hl]

/-- C10 (implicit): once ten samples are in, the resp-rate buffer holds at
least two values, so `statistics.stdev` cannot raise: `stdevOpt` succeeds
and the regularity always takes the normalized value, never the `except`
branch's 0. -/
theorem regularity_no_failure (now : ℚ) (samples : List Sample)
    (h : 10 ≤ samples.length) :
    stdevOpt (runAnalyzer now samples).resp_rate_history =
      some (stdevR (runAnalyzer now samples).resp_rate_history) ∧
    (runAnalyzer now samples).breathing_regularity =
      max 0 (1 - stdevR (runAnalyzer now samples).resp_rate_history / 10) := by
  have hlen : 2 ≤ (runW 50 now samples).resp_rate_history.length := by
    rw [runW_resp_length]
    omega
  constructor
  · rw [runAnalyzer]
    simp [stdevOpt, hlen]
  · rw [runAnalyzer, (runW_regularity 50 (by norm_num) now samples).2 h,
      regularityCompute_eq _ hlen]

/-- Witness for C10 at ten concrete samples. -/
theorem regularity_no_failure_witness :
    10 ≤ (List.replicate 10 ((0 : ℚ), (5 : ℚ), (0 : ℚ))).length ∧
    (stdevOpt (runAnalyzer 0 (List.replicate 10 ((0 : ℚ), (5 : ℚ), (0 : ℚ)))).resp_rate_history =
      some (stdevR (runAnalyzer 0 (List.replicate 10 ((0 : ℚ), (5 : ℚ), (0 : ℚ)))).resp_rate_history) ∧
    (runAnalyzer 0 (List.replicate 10 ((0 : ℚ), (5 : ℚ), (0 : ℚ)))).breathing_regularity =
      max 0 (1 - stdevR (runAnalyzer 0 (List.replicate 10 ((0 : ℚ), (5 : ℚ), (0 : ℚ)))).resp_rate_history / 10)) :=
  ⟨by decide, regularity_no_failure 0 _ (by decide)⟩

end BreathUnity
